import Mathlib

set_option autoImplicit false

/-!
Verification of the chronos_sync calendar-reminder system: a shallow
embedding of the two lambda units (ical_processor and notification_service)
and proofs of the specified properties.

Time values are modelled at microsecond resolution: a naive (zone-free)
calendar clock reading is an integer count of microseconds since the clock
reading 1970-01-01T00:00:00, and a timezone is a named fixed offset from
UTC, so that localizing a naive clock c in zone z yields the absolute
instant c - z.offset.
-/

namespace ChronosSync

/-- A timezone as used by the planner: a tz-database name together with its
UTC offset in microseconds (east positive).  Localizing a naive clock `c`
in this zone yields the absolute instant `c - offset`. -/
structure Tz where
  name : String
  offset : Int
deriving DecidableEq, Repr

/-- The UTC zone (pytz.UTC): offset 0, rendered as the string "UTC". -/
def utcTz : Tz := ⟨"UTC", 0⟩

/-- A Python datetime value: either timezone-aware (clock reading plus a
tzinfo) or naive/floating (clock reading only). -/
inductive DT where
  | aware (clock : Int) (tz : Tz)
  | naive (clock : Int)
deriving DecidableEq, Repr

/-- Subtracting a timedelta from a datetime: the clock moves back and the
tzinfo (present or absent) is preserved, exactly as in Python. -/
def DT.subMicros : DT → Int → DT
  | .aware c tz, d => .aware (c - d) tz
  | .naive c, d => .naive (c - d)

/-- Microseconds-since-epoch of `datetime.timestamp()` when the process
runs with a UTC system zone (the Lambda environment): an aware datetime
subtracts its zone offset, a naive one is read as system-local = UTC. -/
def DT.timestampMicro : DT → Int
  | .aware c tz => c - tz.offset
  | .naive c => c

/-- Absolute instant of an aware datetime (used for Python comparison of
aware datetimes, which compares absolute times). -/
def DT.awareAbs : DT → Int
  | .aware c tz => c - tz.offset
  | .naive c => c

/-- The tzinfo attribute: some zone for aware datetimes, none for naive. -/
def DT.tzinfo : DT → Option Tz
  | .aware _ tz => some tz
  | .naive _ => none

/-! ### Decimal rendering and clock formatting -/

/-- The decimal digit character for `n % 10`. -/
def digitChar (n : Nat) : Char := Char.ofNat (48 + n % 10)

/-- Decimal digits, most significant first, by structural recursion on a
fuel bound (any fuel above the argument yields the digits). -/
def natDecimalAux : Nat → Nat → List Char
  | 0, _ => []
  | fuel + 1, n =>
      if n < 10 then [digitChar n]
      else natDecimalAux fuel (n / 10) ++ [digitChar (n % 10)]

/-- Decimal digits of a natural number, most significant first. -/
def natDecimal (n : Nat) : List Char := natDecimalAux (n + 1) n

/-- Decimal rendering of an integer, with a leading minus sign when
negative (the rendering used by Python str()/f-strings on int). -/
def intDecimal (i : Int) : List Char :=
  if i < 0 then '-' :: natDecimal (-i).toNat else natDecimal i.toNat

/-- Two-digit zero-padded rendering (the strftime %m/%d/%H/%M/%S fields;
the argument is always below 100 where this is used). -/
def pad2 (n : Nat) : List Char := [digitChar (n / 10), digitChar n]

/-- Four-digit zero-padded rendering (the strftime %Y field; years in the
scheduling window are four-digit). -/
def pad4 (n : Nat) : List Char :=
  [digitChar (n / 1000), digitChar (n / 100), digitChar (n / 10), digitChar n]

/-- Gregorian civil date (year, month, day) from a count of days since
1970-01-01, by the standard era decomposition of the proleptic Gregorian
calendar. -/
def civilFromDays (z : Int) : Int × Nat × Nat :=
  let z := z + 719468
  let era : Int := Int.fdiv z 146097
  let doe : Nat := (z - era * 146097).toNat
  let yoe : Nat := (doe - doe / 1460 + doe / 36524 - doe / 146096) / 365
  let doy : Nat := doe - (365 * yoe + yoe / 4 - yoe / 100)
  let mp : Nat := (5 * doy + 2) / 153
  let d : Nat := doy - (153 * mp + 2) / 5 + 1
  let m : Nat := if mp < 10 then mp + 3 else mp - 9
  let y : Int := (yoe : Int) + era * 400 + (if mp < 10 then 0 else 1)
  (y, m, d)

/-- The six clock fields (Y, M, D, h, m, s) of a naive clock reading given
as microseconds since the epoch clock reading. -/
def clockFields (c : Int) : Nat × Nat × Nat × Nat × Nat × Nat :=
  let totalSec : Int := Int.fdiv c 1000000
  let days : Int := Int.fdiv totalSec 86400
  let secOfDay : Nat := (totalSec - days * 86400).toNat
  let ymd := civilFromDays days
  (ymd.1.toNat, ymd.2.1, ymd.2.2,
    secOfDay / 3600, secOfDay % 3600 / 60, secOfDay % 60)

/-- strftime with format %Y-%m-%dT%H:%M:%S applied to a naive clock. -/
def fmtClock (c : Int) : List Char :=
  let f := clockFields c
  pad4 f.1 ++ '-' :: pad2 f.2.1 ++ '-' :: pad2 f.2.2.1 ++
    'T' :: pad2 f.2.2.2.1 ++ ':' :: pad2 f.2.2.2.2.1 ++ ':' :: pad2 f.2.2.2.2.2

/-- The EventBridge one-shot schedule expression for a naive clock:
at(YYYY-MM-DDTHH:MM:SS), with no zone indicator in the string. -/
def scheduleExpression (c : Int) : String :=
  String.mk ('a' :: 't' :: '(' :: fmtClock c ++ [')'])

/-- ISO-8601 rendering of a naive clock: the clock fields plus a
fractional part when the microseconds are nonzero. -/
def isoClock (c : Int) : List Char :=
  let micro := (c - Int.fdiv c 1000000 * 1000000).toNat
  if micro = 0 then fmtClock c
  else fmtClock c ++ '.' :: pad2 (micro / 10000) ++
    pad2 (micro / 100 % 100) ++ pad2 micro

/-- ISO-8601 rendering of a datetime (datetime.isoformat()): the clock
fields, a fractional part when the microseconds are nonzero, and for aware
values the signed HH:MM offset suffix. -/
def DT.isoformat : DT → String
  | .naive c => String.mk (isoClock c)
  | .aware c tz =>
      let offMin := Int.fdiv tz.offset 60000000
      if offMin < 0 then
        String.mk (isoClock c ++ '-' :: pad2 ((-offMin).toNat / 60) ++
          ':' :: pad2 ((-offMin).toNat % 60))
      else
        String.mk (isoClock c ++ '+' :: pad2 (offMin.toNat / 60) ++
          ':' :: pad2 (offMin.toNat % 60))

/-! ### Python int() parsing -/

/-- Decimal digits with single underscores permitted between digits, as
accepted by Python int(); returns the value. -/
def parseDigits : List Char → Option Nat
  | [] => none
  | cs => go cs none
where
  /-- Accumulates the value; an underscore is legal only between digits. -/
  go : List Char → Option Nat → Option Nat
  | [], acc => acc
  | c :: rest, acc =>
      if c.isDigit then
        go rest (some ((acc.getD 0) * 10 + (c.toNat - 48)))
      else if c = '_' then
        match acc, rest with
        | some _, r :: rs => if r.isDigit then go (r :: rs) acc else none
        | _, _ => none
      else none

/-- Whitespace accepted by Python str.strip()/str.split(): the Unicode
whitespace code points recognized by str.isspace(). -/
def isPyWs (c : Char) : Bool :=
  let n := c.toNat
  (9 ≤ n && n ≤ 13) || (28 ≤ n && n ≤ 31) || n = 32 || n = 133 || n = 160 ||
  n = 0x1680 || (0x2000 ≤ n && n ≤ 0x200A) || n = 0x2028 || n = 0x2029 ||
  n = 0x202F || n = 0x205F || n = 0x3000

/-- Python str.strip(): drop leading and trailing whitespace. -/
def pyStrip (l : List Char) : List Char :=
  ((l.dropWhile isPyWs).reverse.dropWhile isPyWs).reverse

/-- Python int(s) on a string: strip whitespace, optional sign, then
decimal digits (with legal underscores); none models ValueError. -/
def parsePyInt (s : String) : Option Int :=
  match pyStrip s.data with
  | '-' :: rest => (parseDigits rest).map (fun n => -(n : Int))
  | '+' :: rest => (parseDigits rest).map (fun n => (n : Int))
  | cs => (parseDigits cs).map (fun n => (n : Int))

/-- Truthiness of an optional environment string: os.environ.get followed
by a Python `if not x` test — present and nonempty. -/
def envPresent (o : Option String) : Bool :=
  !((o.getD "") == "")

/-- Python str.endswith on code points. -/
def pyEndsWith (s p : String) : Bool :=
  p.data.isSuffixOf s.data

/-! ### Planner data model (ical_processor) -/

/-- The DTSTART value of an expanded event: either a date-only (whole-day)
value, counted in days since the epoch, or a datetime with time of day. -/
inductive StartVal where
  | dateOnly (day : Int)
  | timed (dt : DT)
deriving DecidableEq, Repr

/-- Whether a start value is a datetime (has a timestamp method), i.e. is
not a whole-day date. -/
def StartVal.isTimed : StartVal → Bool
  | .dateOnly _ => false
  | .timed _ => true

/-- One event as returned by the recurrence-expansion library for the
lookahead window: optional iCal properties plus the start value. -/
structure RawEvent where
  summary : Option String
  location : Option String
  description : Option String
  uid : Option String
  start : StartVal
deriving DecidableEq, Repr

/-- The event dictionary built by get_upcoming_events. -/
structure Occurrence where
  summary : String
  start_datetime : StartVal
  location : String
  description : String
  uid : String
deriving DecidableEq, Repr

/-- The event_info dictionary for one raw event, with the defaults of
get_upcoming_events applied to the optional fields. -/
def toOccurrence (e : RawEvent) : Occurrence :=
  { summary := e.summary.getD "Untitled Event"
    start_datetime := e.start
    location := e.location.getD ""
    description := e.description.getD ""
    uid := e.uid.getD "" }

/-- get_upcoming_events, past the external expansion call: the library has
produced the raw events intersecting the window; the function skips every
date-only (whole-day) start and converts the rest to event dictionaries. -/
def get_upcoming_events (events : List RawEvent) : List Occurrence :=
  events.filterMap fun e =>
    match e.start with
    | .dateOnly _ => none
    | .timed _ => some (toOccurrence e)

/-- Environment configuration of the ical_processor lambda; each field is
the raw os.environ.get result. -/
structure PlannerEnv where
  s3BucketName : Option String
  scheduleGroupName : Option String
  notificationLambdaArn : Option String
  schedulerRoleArn : Option String
  notificationMinutesBefore : Option String
  fallbackTimezone : Option String
deriving DecidableEq, Repr

/-- get_schedule_configuration: reads the two target ARNs, parses the lead
minutes (int() raises for an unparsable string — at line 350, before the
missing-ARN check at line 353), reads the fallback zone name, and requires
both ARNs to be present and nonempty. -/
def get_schedule_configuration (env : PlannerEnv) :
    Except String (String × String × Int × String) :=
  match parsePyInt (env.notificationMinutesBefore.getD "15") with
  | none => .error "invalid literal for int() with base 10"
  | some minutes =>
      if !envPresent env.notificationLambdaArn || !envPresent env.schedulerRoleArn then
        .error "NOTIFICATION_LAMBDA_ARN and SCHEDULER_ROLE_ARN environment variables are required"
      else
        .ok (env.notificationLambdaArn.getD "", env.schedulerRoleArn.getD "",
          minutes, env.fallbackTimezone.getD "UTC")

/-- generate_schedule_name: event-{uid}-{int(start.timestamp())}.  The
int() conversion truncates the fractional seconds toward zero; a date-only
start has no timestamp method and raises AttributeError. -/
def generate_schedule_name (e : Occurrence) : Except String String :=
  match e.start_datetime with
  | .timed dt =>
      .ok (String.mk (("event-" ++ e.uid ++ "-").data ++
        intDecimal (Int.tdiv dt.timestampMicro 1000000)))
  | .dateOnly _ => .error "AttributeError: date object has no attribute timestamp"

/-- calculate_notification_time: event_time - timedelta(minutes=m),
zone-preserving. -/
def calculate_notification_time (t : DT) (minutesBefore : Int) : DT :=
  t.subMicros (minutesBefore * 60000000)

/-- The JSON payload handed to the schedule target (build_schedule_payload):
the summary, location, ISO-rendered start time and the fixed tag. -/
structure SchedulePayload where
  event_summary : String
  event_location : String
  event_time : String
  notification_type : String
deriving DecidableEq, Repr

/-- build_schedule_payload for one event dictionary. -/
def build_schedule_payload (e : Occurrence) : SchedulePayload :=
  { event_summary := e.summary
    event_location := e.location
    event_time :=
      match e.start_datetime with
      | .timed dt => dt.isoformat
      | .dateOnly day => String.mk (pad4 (civilFromDays day).1.toNat ++
          '-' :: pad2 (civilFromDays day).2.1 ++ '-' :: pad2 (civilFromDays day).2.2)
    notification_type := "calendar_reminder" }

/-- The keyword arguments of the scheduler.create_schedule call. -/
structure TriggerReq where
  name : String
  groupName : String
  scheduleExpr : String
  scheduleExprTimezone : String
  targetArn : String
  roleArn : String
  input : SchedulePayload
deriving DecidableEq, Repr

/-- The tz database (pytz.timezone lookups): zone name to UTC offset in
microseconds; a name that is absent raises UnknownTimeZoneError. -/
def lookupTz (db : List (String × Int)) (name : String) : Option Int :=
  (db.find? (fun p => p.1 == name)).map Prod.snd

/-- create_event_schedule for one event: fetch configuration, generate the
schedule name, compute the notification time, lift it to an aware instant
(directly if aware; through the fallback zone then astimezone(UTC) if
naive), discard the event when the notification instant is not strictly
after now, and otherwise produce the create_schedule request with a
zone-free at(...) expression and the zone carried separately.  Returns
ok none for a discarded (past) event, ok (some req) for a scheduled one. -/
def create_event_schedule (tzdb : List (String × Int)) (now : Int)
    (env : PlannerEnv) (e : Occurrence) (scheduleGroup : String) :
    Except String (Option TriggerReq) := do
  let cfg ← get_schedule_configuration env
  let (arn, role, minutes, fallbackName) := cfg
  let scheduleName ← generate_schedule_name e
  match e.start_datetime with
  | .dateOnly _ => .error "AttributeError: date object has no attribute timestamp"
  | .timed startDt =>
      let notificationTime := calculate_notification_time startDt minutes
      let notificationTimeCmp : DT ←
        match notificationTime with
        | .aware c tz => pure (DT.aware c tz)
        | .naive c =>
            match lookupTz tzdb fallbackName with
            | none => .error ("UnknownTimeZoneError: " ++ fallbackName)
            | some off => pure (DT.aware (c - off) utcTz)
      if notificationTimeCmp.awareAbs ≤ now then
        pure none
      else
        let exprTz : String × String :=
          match notificationTimeCmp with
          | .aware c tz => (scheduleExpression c, tz.name)
          | .naive c => (scheduleExpression c, fallbackName)
        pure (some
          { name := scheduleName
            groupName := scheduleGroup
            scheduleExpr := exprTz.1
            scheduleExprTimezone := exprTz.2
            targetArn := arn
            roleArn := role
            input := build_schedule_payload e })

/-! ### Planner handler with an explicit effect trace -/

/-- One side-effecting collaborator call made by the planner run. -/
inductive Action where
  | deleteScheduleGroup (g : String)
  | sleepSeconds (n : Nat)
  | createScheduleGroup (g : String)
  | deleteObject (key : String)
  | uploadObject (key : String)
  | createSchedule (req : TriggerReq)
deriving DecidableEq, Repr

/-- One .ics member of the uploaded archive: its name and the raw events
the expansion library yields for its content over the 7-day window. -/
structure ZipEntry where
  name : String
  events : List RawEvent
deriving DecidableEq, Repr

/-- The zip_file payload after base64/zip decoding: either undecodable
(base64 or zip error) or an archive with its member files. -/
inductive ZipData where
  | malformed
  | archive (entries : List ZipEntry)
deriving DecidableEq, Repr

/-- The collaborator state a planner run starts from: whether the schedule
group exists, the keys currently stored in the bucket, the tz database and
the current absolute time in microseconds. -/
structure World where
  groupExists : Bool
  bucketObjects : List String
  tzdb : List (String × Int)
  now : Int
deriving DecidableEq, Repr

/-- clear_event_bridge_schedules: delete the group (tolerating absence),
and when the delete succeeded wait a fixed 30 seconds for the asynchronous
deletion to settle, then recreate the empty group.  When the group was
absent the not-found error is swallowed and the group is just created. -/
def clear_event_bridge_schedules (env : PlannerEnv) (w : World) : List Action :=
  let g := env.scheduleGroupName.getD "ical-notifications"
  if w.groupExists then
    [.deleteScheduleGroup g, .sleepSeconds 30, .createScheduleGroup g]
  else
    [.deleteScheduleGroup g, .createScheduleGroup g]

/-- clear_bucket: delete every stored object (no call when the bucket is
already empty, which the per-key trace renders as the empty trace) and
report the count deleted. -/
def clear_bucket (objs : List String) : List Action × Nat :=
  (objs.map .deleteObject, objs.length)

/-- extract_and_upload_calendars: decode the archive (an undecodable
payload raises), keep the members whose names end in .ics and are not
directories, and upload each kept member. -/
def extract_and_upload_calendars (zd : ZipData) :
    Except String (List Action × List ZipEntry) :=
  match zd with
  | .malformed => .error "Invalid base64-encoded zip file"
  | .archive entries =>
      let icals := entries.filter fun e =>
        pyEndsWith e.name ".ics" && !(pyEndsWith e.name "/")
      .ok (icals.map (fun e => .uploadObject e.name), icals)

/-- create_schedules_for_events: one create_event_schedule call per event,
counting every processed event and halting at the first raised error. -/
def create_schedules_for_events (tzdb : List (String × Int)) (now : Int)
    (env : PlannerEnv) (events : List Occurrence) (scheduleGroup : String) :
    List Action × Except String Nat :=
  match events with
  | [] => ([], .ok 0)
  | e :: rest =>
      match create_event_schedule tzdb now env e scheduleGroup with
      | .error msg => ([], .error msg)
      | .ok none =>
          let r := create_schedules_for_events tzdb now env rest scheduleGroup
          (r.1, r.2.map (· + 1))
      | .ok (some req) =>
          let r := create_schedules_for_events tzdb now env rest scheduleGroup
          (.createSchedule req :: r.1, r.2.map (· + 1))

/-- process_calendars_and_create_schedules: list the stored .ics files
(after the rebuild these are exactly the uploaded members), and for each
one expand its events and create their schedules, accumulating the total
event count and halting at the first raised error. -/
def process_calendars_and_create_schedules (tzdb : List (String × Int))
    (now : Int) (env : PlannerEnv) (files : List ZipEntry)
    (scheduleGroup : String) : List Action × Except String Nat :=
  match files with
  | [] => ([], .ok 0)
  | f :: rest =>
      let events := get_upcoming_events f.events
      let r := create_schedules_for_events tzdb now env events scheduleGroup
      match r.2 with
      | .error msg => (r.1, .error msg)
      | .ok _ =>
          let rr := process_calendars_and_create_schedules tzdb now env rest scheduleGroup
          (r.1 ++ rr.1, rr.2.map (· + events.length))

/-- The structured result the planner handler returns. -/
structure HandlerResult where
  success : Bool
  error : Option String
  filesDeleted : Nat
  calendarsProcessed : Nat
  totalEvents : Nat
  schedulesCleared : Bool
deriving DecidableEq, Repr

/-- A failing handler result carrying the error message. -/
def failResult (msg : String) : HandlerResult :=
  { success := false, error := some msg, filesDeleted := 0,
    calendarsProcessed := 0, totalEvents := 0, schedulesCleared := false }

/-- lambda_handler of the ical_processor: validate the environment, then
the payload, then clear the schedule group, clear the bucket, decode and
upload the archive, and process the calendars; any raised error is caught
and reported as success:false with the effects so far already performed. -/
def lambda_handler (env : PlannerEnv) (w : World) (zipFile : Option ZipData) :
    HandlerResult × List Action :=
  if !envPresent env.s3BucketName then
    (failResult "S3_BUCKET_NAME environment variable not set", [])
  else if !envPresent env.scheduleGroupName then
    (failResult "SCHEDULE_GROUP_NAME environment variable not set", [])
  else
    match zipFile with
    | none => (failResult "zip_file required in event payload", [])
    | some zd =>
        let t1 := clear_event_bridge_schedules env w
        let cb := clear_bucket w.bucketObjects
        match extract_and_upload_calendars zd with
        | .error msg => (failResult msg, t1 ++ cb.1)
        | .ok (t3, icals) =>
            let pr := process_calendars_and_create_schedules w.tzdb w.now env
              icals (env.scheduleGroupName.getD "")
            match pr.2 with
            | .error msg => (failResult msg, t1 ++ cb.1 ++ t3 ++ pr.1)
            | .ok total =>
                ({ success := true, error := none, filesDeleted := cb.2,
                   calendarsProcessed := icals.length, totalEvents := total,
                   schedulesCleared := true }, t1 ++ cb.1 ++ t3 ++ pr.1)

/-! ### Notification service (notification_service) -/

/-- Environment configuration of the notification_service lambda. -/
structure NotifEnv where
  snsTopicArn : Option String
  notificationMinutesBefore : Option String
deriving DecidableEq, Repr

/-- validate_environment_variables of the notification service: the topic
must be present, and the lead minutes must parse and lie in 1..1440; the
collected error messages are returned alongside the parsed values. -/
def validateNotifEnv (env : NotifEnv) : Option String × Int × List String :=
  let topicErrs := if !envPresent env.snsTopicArn then
    ["SNS_TOPIC_ARN environment variable not set"] else []
  match parsePyInt (env.notificationMinutesBefore.getD "15") with
  | some m =>
      let rangeErrs := if m ≤ 0 || 1440 < m then
        ["NOTIFICATION_MINUTES_BEFORE must be between 1 and 1440"] else []
      (env.snsTopicArn, m, topicErrs ++ rangeErrs)
  | none =>
      (env.snsTopicArn, 15,
        topicErrs ++ ["NOTIFICATION_MINUTES_BEFORE must be a valid integer"])

/-- The fired-trigger payload the dispatcher receives; none means the key
is absent from the event dictionary. -/
structure DispatchEvent where
  event_summary : Option String
  event_location : Option String
  event_time : Option String
  notification_type : Option String
deriving DecidableEq, Repr

/-- The required fields, in the order the dispatcher checks them. -/
def requiredFieldNames : List String :=
  ["event_summary", "event_time", "notification_type"]

/-- The names of required fields absent from the payload, in check order. -/
def missingFields (ev : DispatchEvent) : List String :=
  (if ev.event_summary.isNone then ["event_summary"] else []) ++
  (if ev.event_time.isNone then ["event_time"] else []) ++
  (if ev.notification_type.isNone then ["notification_type"] else [])

/-- validate_event_payload of the notification service: presence check of
the three required keys; a single error naming all the missing fields. -/
def validate_event_payload (ev : DispatchEvent) :
    Option DispatchEvent × List String :=
  match missingFields ev with
  | [] => (some ev, [])
  | ms => (none, ["Missing required fields: " ++ String.intercalate ", " ms])

/-- The character filter of sanitize_event_summary: char.isprintable() or
ord(char) > 127.  For code points at most 127 printable is exactly
0x20..0x7E, and above 127 the disjunction is true outright. -/
def keepChar (c : Char) : Bool :=
  (32 ≤ c.toNat && c.toNat ≤ 126) || 127 < c.toNat

/-- Python str.split() with no separator: the maximal whitespace-free
nonempty runs, in order. -/
def pySplit : List Char → List (List Char)
  | [] => []
  | c :: rest =>
      if isPyWs c then pySplit rest
      else
        match rest with
        | [] => [[c]]
        | r :: _ =>
            if isPyWs r then [c] :: pySplit rest
            else
              match pySplit rest with
              | [] => [[c]]
              | w :: ws => (c :: w) :: ws

/-- sanitize_event_summary: empty or whitespace-only input becomes
"Untitled Event"; otherwise runs of whitespace collapse to single spaces
with the ends trimmed, and the non-printable ASCII characters are removed
while everything above 127 is kept. -/
def sanitize_event_summary (s : List Char) : List Char :=
  if pyStrip s = [] then "Untitled Event".data
  else
    let cleaned := List.intercalate [' '] (pySplit (pyStrip s))
    cleaned.filter keepChar

/-- Python list slicing s[:k] for an int bound: a nonnegative bound takes
that many elements; a negative bound drops that many from the end. -/
def pySliceTo (l : List Char) (k : Int) : List Char :=
  if 0 ≤ k then l.take k.toNat else l.take (l.length - (-k).toNat)

/-- format_notification_message: sanitize the summary, append the
" (<N>min)" suffix, and when the pair exceeds 160 characters truncate the
title to 160 - len(suffix) - 3 characters with a "..." before the suffix. -/
def format_notification_message (ev : DispatchEvent) (minutes : Int) : List Char :=
  if 160 < (sanitize_event_summary (ev.event_summary.getD "").data).length +
      (' ' :: '(' :: intDecimal minutes ++ "min)".data).length then
    pySliceTo (sanitize_event_summary (ev.event_summary.getD "").data)
        (160 - ((' ' :: '(' :: intDecimal minutes ++ "min)".data).length : Int) - 3) ++
      "...".data ++ (' ' :: '(' :: intDecimal minutes ++ "min)".data)
  else
    sanitize_event_summary (ev.event_summary.getD "").data ++
      (' ' :: '(' :: intDecimal minutes ++ "min)".data)

/-- One transport call of the notification service. -/
inductive NotifAction where
  | publish (topicArn : String) (message : List Char) (subject : String)
deriving DecidableEq, Repr

/-- Whether the SNS publish succeeds, and its message id / error detail. -/
structure NotifWorld where
  snsOk : Bool
  messageId : String
  snsErr : String
deriving DecidableEq, Repr

/-- The structured result the dispatcher returns. -/
structure NotifResult where
  success : Bool
  error : Option String
  messageLength : Option Nat
  messageId : Option String
deriving DecidableEq, Repr

/-- process_notification: format the message, publish it with the fixed
subject, and report the outcome. -/
def process_notification (ev : DispatchEvent) (topic : String) (minutes : Int)
    (w : NotifWorld) : NotifResult × List NotifAction :=
  let message := format_notification_message ev minutes
  let acts := [NotifAction.publish topic message "Calendar Reminder"]
  if w.snsOk then
    ({ success := true, error := none, messageLength := some message.length,
       messageId := some w.messageId }, acts)
  else
    ({ success := false, error := some ("SMS sending failed: " ++ w.snsErr),
       messageLength := none, messageId := none }, acts)

/-- lambda_handler of the notification_service: validate the environment,
then the payload (returning the first error with no transport call), then
process the notification. -/
def notification_lambda_handler (env : NotifEnv) (w : NotifWorld)
    (ev : DispatchEvent) : NotifResult × List NotifAction :=
  let v := validateNotifEnv env
  match v.2.2 with
  | errMsg :: _ =>
      ({ success := false, error := some errMsg, messageLength := none,
         messageId := none }, [])
  | [] =>
      match validate_event_payload ev with
      | (_, errMsg :: _) =>
          ({ success := false, error := some errMsg, messageLength := none,
             messageId := none }, [])
      | (_, []) => process_notification ev (v.1.getD "") v.2.1 w

/-! ### Helper lemmas -/

theorem digitChar_isDigit (n : Nat) : (digitChar n).isDigit = true := by
  have h : n % 10 < 10 := Nat.mod_lt _ (by norm_num)
  unfold digitChar
  interval_cases h : n % 10 <;> decide

theorem natDecimalAux_length_le (fuel : Nat) :
    ∀ k n : Nat, n < fuel → 0 < k → n < 10 ^ k →
      (natDecimalAux fuel n).length ≤ k := by
  induction fuel with
  | zero => intro k n h _ _; omega
  | succ fuel ih =>
      intro k n hf hk hn
      by_cases h10 : n < 10
      · simp [natDecimalAux, h10]
        omega
      · simp only [natDecimalAux, if_neg h10, List.length_append,
          List.length_cons, List.length_nil]
        cases k with
        | zero => omega
        | succ k =>
            have hk : 0 < k := by
              by_contra hk0
              have hz : k = 0 := by omega
              subst hz
              simp at hn
              omega
            have hdiv : n / 10 < 10 ^ k := by
              rw [Nat.div_lt_iff_lt_mul (by norm_num)]
              calc n < 10 ^ (k + 1) := hn
              _ = 10 ^ k * 10 := by ring
            have hfuel : n / 10 < fuel := by
              have := Nat.div_lt_self (show 0 < n by omega) (show 1 < 10 by norm_num)
              omega
            have := ih k (n / 10) hfuel hk hdiv
            omega

theorem natDecimal_length_le (k n : Nat) (hk : 0 < k) (hn : n < 10 ^ k) :
    (natDecimal n).length ≤ k :=
  natDecimalAux_length_le (n + 1) k n (by omega) hk hn

theorem natDecimal_length_pos (n : Nat) : 0 < (natDecimal n).length := by
  rw [natDecimal]
  by_cases h10 : n < 10 <;> simp [natDecimalAux, h10]

theorem pad2_digits (n : Nat) : ∀ c ∈ pad2 n, c.isDigit = true := by
  intro c hc
  simp [pad2] at hc
  rcases hc with h | h <;> subst h <;> exact digitChar_isDigit _

theorem pad4_digits (n : Nat) : ∀ c ∈ pad4 n, c.isDigit = true := by
  intro c hc
  simp [pad4] at hc
  rcases hc with h | h | h | h <;> subst h <;> exact digitChar_isDigit _

/-- The shape of a valid EventBridge at(...) one-shot expression: the
literal characters at( and ), enclosing YYYY-MM-DDTHH:MM:SS with every
field a fixed-width digit group — in particular no Z and no offset
suffix anywhere in the string. -/
def atClockString (s : String) : Prop :=
  ∃ y mo d h mi sec : List Char,
    y.length = 4 ∧ mo.length = 2 ∧ d.length = 2 ∧ h.length = 2 ∧
    mi.length = 2 ∧ sec.length = 2 ∧
    (∀ c ∈ y ++ mo ++ d ++ h ++ mi ++ sec, c.isDigit = true) ∧
    s.data = 'a' :: 't' :: '(' ::
      (y ++ '-' :: mo ++ '-' :: d ++ 'T' :: h ++ ':' :: mi ++ ':' :: sec) ++ [')']

theorem scheduleExpression_format (c : Int) : atClockString (scheduleExpression c) := by
  refine ⟨pad4 (clockFields c).1, pad2 (clockFields c).2.1, pad2 (clockFields c).2.2.1,
    pad2 (clockFields c).2.2.2.1, pad2 (clockFields c).2.2.2.2.1,
    pad2 (clockFields c).2.2.2.2.2, rfl, rfl, rfl, rfl, rfl, rfl, ?_, ?_⟩
  · intro ch hch
    simp only [List.mem_append] at hch
    rcases hch with ((((h | h) | h) | h) | h) | h
    · exact pad4_digits _ _ h
    all_goals exact pad2_digits _ _ h
  · simp [scheduleExpression, fmtClock]

/-! ### C8: whole-day events are filtered unconditionally -/

/-- Claim C8: for every expansion result, the planner keeps exactly the
events with a timed start — whole-day (date-only) events never appear in
the output, regardless of the window that produced the expansion, and
their absence is the normal (error-free) outcome. -/
theorem whole_day_events_filtered (events : List RawEvent) :
    get_upcoming_events events =
      (events.filter (fun e => e.start.isTimed)).map toOccurrence ∧
    (∀ o ∈ get_upcoming_events events, ∀ day, o.start_datetime ≠ .dateOnly day) := by
  constructor
  · induction events with
    | nil => rfl
    | cons e rest ih =>
        cases h : e.start <;>
          simp [get_upcoming_events, StartVal.isTimed, h, List.filter_cons] at ih ⊢ <;>
          exact ih
  · intro o ho day
    induction events with
    | nil => simp [get_upcoming_events] at ho
    | cons e rest ih =>
        cases h : e.start with
        | dateOnly d => simp [get_upcoming_events, h] at ho; exact ih (by simpa [get_upcoming_events] using ho)
        | timed dt =>
            simp [get_upcoming_events, h] at ho
            rcases ho with ho | ho
            · subst ho; simp [toOccurrence, h]
            · exact ih (by simpa [get_upcoming_events] using ho)

/-- Witness for C8: a concrete expansion with one whole-day and one timed
event keeps only the timed one, whose start is not date-only. -/
theorem whole_day_events_filtered_witness :
    (get_upcoming_events
        [⟨some "BDay", none, none, some "u1", .dateOnly 20000⟩,
         ⟨some "Mtg", none, none, some "u2", .timed (.naive 1735120800000000)⟩] =
      [toOccurrence ⟨some "Mtg", none, none, some "u2", .timed (.naive 1735120800000000)⟩]) ∧
    (toOccurrence ⟨some "Mtg", none, none, some "u2", .timed (.naive 1735120800000000)⟩).start_datetime ≠ .dateOnly 20000 := by
  constructor
  · exact (whole_day_events_filtered _).1.trans (by decide)
  · exact (whole_day_events_filtered
      [⟨some "BDay", none, none, some "u1", .dateOnly 20000⟩,
       ⟨some "Mtg", none, none, some "u2", .timed (.naive 1735120800000000)⟩]).2
      _ (by decide) 20000

/-! ### C9: schedule names are a pure function of (uid, floor epoch seconds) -/

/-- Claim C9: for occurrences whose start is at or after the epoch (every
occurrence the planner handles starts in the forward-looking window, hence
after the epoch), the generated schedule name depends only on the uid and
the floor of the start instant as epoch seconds, so re-running the planner
over an unchanged occurrence yields the identical trigger name. -/
theorem schedule_name_pure_function (o1 o2 : Occurrence) (dt1 dt2 : DT)
    (h1 : o1.start_datetime = .timed dt1) (h2 : o2.start_datetime = .timed dt2)
    (huid : o1.uid = o2.uid)
    (hn1 : 0 ≤ dt1.timestampMicro) (hn2 : 0 ≤ dt2.timestampMicro)
    (hfloor : Int.fdiv dt1.timestampMicro 1000000 =
      Int.fdiv dt2.timestampMicro 1000000) :
    generate_schedule_name o1 = generate_schedule_name o2 := by
  have key : ∀ m : Int, 0 ≤ m → Int.tdiv m 1000000 = Int.fdiv m 1000000 := by
    intro m hm
    rw [Int.tdiv_eq_ediv hm (by norm_num), Int.fdiv_eq_ediv _ (by norm_num)]
  simp only [generate_schedule_name, h1, h2, huid, key _ hn1, key _ hn2, hfloor]

/-- Witness for C9: two occurrences sharing a uid whose starts differ by a
fraction of a second (the same floored epoch second) get the same name. -/
theorem schedule_name_pure_function_witness :
    (0 : Int) ≤ (DT.naive 1735120800100000).timestampMicro ∧
    generate_schedule_name ⟨"A", .timed (.naive 1735120800100000), "", "", "u9"⟩ =
      generate_schedule_name ⟨"B", .timed (.naive 1735120800900000), "x", "y", "u9"⟩ := by
  refine ⟨by decide, schedule_name_pure_function _ _ _ _ rfl rfl rfl ?_ ?_ ?_⟩
  · decide
  · decide
  · decide

/-! ### C6: title sanitization -/

theorem pySplit_no_ws (l : List Char) :
    ∀ w ∈ pySplit l, ∀ c ∈ w, isPyWs c = false := by
  induction l with
  | nil => intro w hw; simp [pySplit] at hw
  | cons a rest ih =>
      intro w hw c hc
      by_cases ha : isPyWs a
      · simp only [pySplit, if_pos ha] at hw
        exact ih w hw c hc
      · simp only [pySplit, if_neg ha] at hw
        cases hrest : rest with
        | nil =>
            rw [hrest] at hw
            simp at hw
            subst hw
            simp at hc
            subst hc
            simpa using ha
        | cons r rs =>
            rw [hrest] at hw
            by_cases hr : isPyWs r
            · simp [hr] at hw
              rcases hw with hw | hw
              · subst hw
                simp at hc
                subst hc
                simpa using ha
              · exact ih w (hrest ▸ hw) c hc
            · simp only [if_neg hr] at hw
              cases hsp : pySplit (r :: rs) with
              | nil =>
                  rw [hsp] at hw
                  simp at hw
                  subst hw
                  simp at hc
                  subst hc
                  simpa using ha
              | cons w0 ws0 =>
                  rw [hsp] at hw
                  simp at hw
                  rcases hw with hw | hw
                  · subst hw
                    simp at hc
                    rcases hc with hc | hc
                    · subst hc; simpa using ha
                    · exact ih w0 (by rw [hrest, hsp]; simp) c hc
                  · exact ih w (by rw [hrest, hsp]; simp [hw]) c hc

theorem mem_intercalate_space (ws : List (List Char)) (c : Char)
    (hc : c ∈ List.intercalate [' '] ws) : c = ' ' ∨ ∃ w ∈ ws, c ∈ w := by
  induction ws with
  | nil => simp [List.intercalate] at hc
  | cons w vs ih =>
      cases vs with
      | nil =>
          simp [List.intercalate] at hc
          exact Or.inr ⟨w, by simp, hc⟩
      | cons v vs =>
          have heq : List.intercalate [' '] (w :: v :: vs) =
              w ++ ' ' :: List.intercalate [' '] (v :: vs) := by
            simp [List.intercalate, List.intersperse]
          rw [heq] at hc
          rcases List.mem_append.1 hc with h | h
          · exact Or.inr ⟨w, by simp, h⟩
          · rcases List.mem_cons.1 h with h | h
            · exact Or.inl h
            · rcases ih h with h | ⟨w1, hw1, hcw⟩
              · exact Or.inl h
              · exact Or.inr ⟨w1, by simp [hw1], hcw⟩

/-- Claim C6: sanitization substitutes "Untitled Event" exactly when the
whitespace-trimmed input is empty; otherwise it is the whitespace collapse
(single spaces between the whitespace-free words, trimmed ends) filtered
by the character keep-test; every whitespace character surviving in the
output is a single plain space; the keep-test removes only non-printable
ASCII control characters and keeps every code point above 127 (emoji and
all other non-ASCII printables). -/
theorem sanitize_summary_spec (s : List Char) :
    (pyStrip s = [] → sanitize_event_summary s = "Untitled Event".data) ∧
    (pyStrip s ≠ [] → sanitize_event_summary s =
      (List.intercalate [' '] (pySplit (pyStrip s))).filter keepChar) ∧
    (∀ c ∈ sanitize_event_summary s, isPyWs c = true → c = ' ') ∧
    (∀ c, keepChar c = false → c.toNat < 32 ∨ c.toNat = 127) ∧
    (∀ c, 127 < c.toNat → keepChar c = true) := by
  refine ⟨?_, ?_, ?_, ?_, ?_⟩
  · intro h; simp [sanitize_event_summary, h]
  · intro h; simp [sanitize_event_summary, h]
  · intro c hc hws
    by_cases h : pyStrip s = []
    · simp [sanitize_event_summary, h] at hc
      revert hws
      rcases hc with hc | hc | hc | hc | hc | hc | hc | hc | hc | hc | hc | hc | hc | hc <;>
        subst hc <;> decide
    · simp only [sanitize_event_summary, if_neg h] at hc
      have hmem := List.mem_of_mem_filter hc
      rcases mem_intercalate_space _ _ hmem with h1 | ⟨w, hw, hcw⟩
      · exact h1
      · exact absurd hws (by simp [pySplit_no_ws _ w hw c hcw])
  · intro c hk
    simp [keepChar] at hk
    omega
  · intro c hc
    simp [keepChar]
    omega

/-- Witness for C6: the specified scenario input collapses its whitespace
runs; a whitespace-only input yields the substitute title. -/
theorem sanitize_summary_spec_witness :
    pyStrip "   ".data = [] ∧
    sanitize_event_summary "   ".data = "Untitled Event".data ∧
    sanitize_event_summary "  Multiple   spaces    everywhere  ".data =
      (List.intercalate [' ']
        (pySplit (pyStrip "  Multiple   spaces    everywhere  ".data))).filter keepChar := by
  refine ⟨by decide, (sanitize_summary_spec _).1 (by decide),
    (sanitize_summary_spec "  Multiple   spaces    everywhere  ".data).2.1 (by decide)⟩

/-! ### C5: formatter output is bounded at 160 characters -/

theorem intDecimal_length_bounds (m : Int) (h1 : 1 ≤ m) (h2 : m ≤ 1440) :
    1 ≤ (intDecimal m).length ∧ (intDecimal m).length ≤ 4 := by
  have hneg : ¬ m < 0 := by omega
  have htn : m.toNat < 10 ^ 4 := by omega
  rw [intDecimal, if_neg hneg]
  exact ⟨natDecimal_length_pos _, natDecimal_length_le 4 m.toNat (by norm_num) htn⟩

/-- Claim C5: for every payload and every lead time in the configured
range 1..1440, the formatted message is at most 160 characters; whenever
the sanitized title plus the " (<N>min)" suffix would exceed 160, the
title is cut to 160 - len(suffix) - 3 characters and "..." is placed
before the suffix, so the message ends with "... (<N>min)" and is exactly
160 characters. -/
theorem format_message_bounded (ev : DispatchEvent) (m : Int)
    (h1 : 1 ≤ m) (h2 : m ≤ 1440) :
    (format_notification_message ev m).length ≤ 160 ∧
    (160 < (sanitize_event_summary (ev.event_summary.getD "").data).length +
        (' ' :: '(' :: intDecimal m ++ "min)".data).length →
      format_notification_message ev m =
        (sanitize_event_summary (ev.event_summary.getD "").data).take
            (157 - (' ' :: '(' :: intDecimal m ++ "min)".data).length) ++
          '.' :: '.' :: '.' :: ' ' :: '(' :: intDecimal m ++ "min)".data ∧
      (format_notification_message ev m).length = 160) := by
  have hd := intDecimal_length_bounds m h1 h2
  have h4 : ("min)".data).length = 4 := rfl
  have hsufEq : (' ' :: '(' :: intDecimal m ++ "min)".data).length =
      6 + (intDecimal m).length := by
    simp [List.length_append, List.length_cons, h4]
    omega
  by_cases hlen : 160 <
      (sanitize_event_summary (ev.event_summary.getD "").data).length +
      (' ' :: '(' :: intDecimal m ++ "min)".data).length
  · have hk : (0 : Int) ≤ 160 -
        ((' ' :: '(' :: intDecimal m ++ "min)".data).length : Int) - 3 := by
      rw [hsufEq]
      push_cast
      omega
    have htn : ((160 : Int) -
        ((' ' :: '(' :: intDecimal m ++ "min)".data).length : Int) - 3).toNat =
        157 - (' ' :: '(' :: intDecimal m ++ "min)".data).length := by
      rw [hsufEq]
      omega
    have hexpr : format_notification_message ev m =
        (sanitize_event_summary (ev.event_summary.getD "").data).take
            (157 - (' ' :: '(' :: intDecimal m ++ "min)".data).length) ++
          '.' :: '.' :: '.' :: ' ' :: '(' :: intDecimal m ++ "min)".data := by
      rw [format_notification_message, if_pos hlen, pySliceTo, if_pos hk, htn]
      simp
    rw [hsufEq] at hlen
    have hmin : 157 - (' ' :: '(' :: intDecimal m ++ "min)".data).length ≤
        (sanitize_event_summary (ev.event_summary.getD "").data).length := by
      rw [hsufEq]
      omega
    have hlength : (format_notification_message ev m).length = 160 := by
      rw [hexpr, List.length_append, List.length_append, List.length_take,
        Nat.min_eq_left hmin]
      simp only [List.length_cons, h4]
      rw [hsufEq]
      omega
    exact ⟨le_of_eq hlength, fun _ => ⟨hexpr, hlength⟩⟩
  · constructor
    · rw [format_notification_message, if_neg hlen]
      rw [List.length_append, List.length_append]
      simp only [List.length_append] at hlen
      simp only [List.length_cons, h4] at hlen ⊢
      omega
    · intro h; exact absurd h hlen

set_option maxRecDepth 8192 in
/-- Witness for C5: a 200-character title with the default 15-minute lead
formats to exactly the 160-character budget. -/
theorem format_message_bounded_witness :
    (format_notification_message
      ⟨some (String.mk (List.replicate 200 'A')), none, some "t", some "cal"⟩
      15).length ≤ 160 ∧
    (format_notification_message
      ⟨some (String.mk (List.replicate 200 'A')), none, some "t", some "cal"⟩
      15).length = 160 := by
  refine ⟨(format_message_bounded _ 15 (by decide) (by decide)).1,
    ((format_message_bounded
      ⟨some (String.mk (List.replicate 200 'A')), none, some "t", some "cal"⟩
      15 (by decide) (by decide)).2 (by decide)).2⟩

/-! ### C1: the future check on the reminder instant -/

/-- The absolute instant denoted by a reminder datetime: a zoned value is
read in its own zone, a floating value through the fallback offset. -/
def reminderInstantAbs (t : DT) (fallbackOff : Int) : Int :=
  match t with
  | .aware c tz => c - tz.offset
  | .naive c => c - fallbackOff

theorem create_event_schedule_aware (tzdb : List (String × Int)) (now : Int)
    (env : PlannerEnv) (e : Occurrence) (g : String) (c : Int) (tz : Tz)
    (arn role : String) (minutes : Int) (fbName : String)
    (hcfg : get_schedule_configuration env = .ok (arn, role, minutes, fbName))
    (hstart : e.start_datetime = .timed (.aware c tz)) :
    create_event_schedule tzdb now env e g =
      if c - minutes * 60000000 - tz.offset ≤ now then .ok none
      else .ok (some
        { name := String.mk (("event-" ++ e.uid ++ "-").data ++
            intDecimal (Int.tdiv (c - tz.offset) 1000000))
          groupName := g
          scheduleExpr := scheduleExpression (c - minutes * 60000000)
          scheduleExprTimezone := tz.name
          targetArn := arn
          roleArn := role
          input := build_schedule_payload e }) := by
  rw [create_event_schedule, hcfg]
  simp only [hstart, generate_schedule_name, calculate_notification_time,
    DT.subMicros, DT.awareAbs, DT.timestampMicro, bind, Except.bind, pure,
    Except.pure]

theorem create_event_schedule_naive (tzdb : List (String × Int)) (now : Int)
    (env : PlannerEnv) (e : Occurrence) (g : String) (c : Int)
    (arn role : String) (minutes : Int) (fbName : String) (off : Int)
    (hcfg : get_schedule_configuration env = .ok (arn, role, minutes, fbName))
    (hstart : e.start_datetime = .timed (.naive c))
    (hfb : lookupTz tzdb fbName = some off) :
    create_event_schedule tzdb now env e g =
      if c - minutes * 60000000 - off ≤ now then .ok none
      else .ok (some
        { name := String.mk (("event-" ++ e.uid ++ "-").data ++
            intDecimal (Int.tdiv c 1000000))
          groupName := g
          scheduleExpr := scheduleExpression (c - minutes * 60000000 - off)
          scheduleExprTimezone := "UTC"
          targetArn := arn
          roleArn := role
          input := build_schedule_payload e }) := by
  rw [create_event_schedule, hcfg]
  simp only [hstart, generate_schedule_name, calculate_notification_time,
    DT.subMicros, DT.awareAbs, DT.timestampMicro, hfb, utcTz, sub_zero, bind,
    Except.bind, pure, Except.pure]

/-- Claim C1: under a valid configuration, an occurrence is scheduled if
and only if its reminder instant (start minus the lead minutes), read as
an absolute instant — directly for a zoned start, through the configured
fallback zone for a floating one — is strictly after now; otherwise the
occurrence is discarded with no error. -/
theorem reminder_future_check (tzdb : List (String × Int)) (now : Int)
    (env : PlannerEnv) (e : Occurrence) (g : String) (dt : DT)
    (arn role : String) (minutes : Int) (fbName : String) (off : Int)
    (hcfg : get_schedule_configuration env = .ok (arn, role, minutes, fbName))
    (hstart : e.start_datetime = .timed dt)
    (hfb : lookupTz tzdb fbName = some off) :
    (create_event_schedule tzdb now env e g = .ok none ↔
      reminderInstantAbs (calculate_notification_time dt minutes) off ≤ now) ∧
    ((∃ r, create_event_schedule tzdb now env e g = .ok (some r)) ↔
      now < reminderInstantAbs (calculate_notification_time dt minutes) off) := by
  cases dt with
  | aware c tz =>
      rw [create_event_schedule_aware tzdb now env e g c tz arn role minutes
        fbName hcfg hstart]
      simp only [reminderInstantAbs, calculate_notification_time, DT.subMicros]
      split_ifs with h
      · exact ⟨iff_of_true rfl h, iff_of_false (by simp) (by omega)⟩
      · exact ⟨iff_of_false (by simp) h, iff_of_true ⟨_, rfl⟩ (by omega)⟩
  | naive c =>
      rw [create_event_schedule_naive tzdb now env e g c arn role minutes
        fbName off hcfg hstart hfb]
      simp only [reminderInstantAbs, calculate_notification_time, DT.subMicros]
      split_ifs with h
      · exact ⟨iff_of_true rfl h, iff_of_false (by simp) (by omega)⟩
      · exact ⟨iff_of_false (by simp) h, iff_of_true ⟨_, rfl⟩ (by omega)⟩

/-- Witness for C1: a floating 2024-12-25T10:00 event with an
eleven-hour-offset fallback zone and a lead of 15 minutes, evaluated at a
now before the reminder instant, is scheduled. -/
theorem reminder_future_check_witness :
    ∃ r, create_event_schedule [("Australia/Melbourne", 39600000000)]
      1734000000000000
      ⟨some "bkt", some "grp", some "arn:lambda", some "arn:role", none,
        some "Australia/Melbourne"⟩
      ⟨"Meeting", .timed (.naive 1735120800000000), "", "", "u1"⟩
      "grp" = .ok (some r) := by
  refine ((reminder_future_check _ _ _ _ _ (.naive 1735120800000000)
    "arn:lambda" "arn:role" 15 "Australia/Melbourne" 39600000000
    ?_ rfl ?_).2).mpr ?_
  · rfl
  · rfl
  · decide

/-! ### C2: the trigger wire format (corrected) -/

/-- Counterexample for C2 as stated: a floating occurrence, processed with
the fallback timezone configured as Australia/Melbourne, produces a
trigger whose fire-timezone field is "UTC" — not the fallback timezone
name as the claim requires. -/
theorem trigger_timezone_counterexample :
    ((create_event_schedule [("Australia/Melbourne", 39600000000)] 0
        ⟨some "bkt", some "grp", some "arn:lambda", some "arn:role", none,
          some "Australia/Melbourne"⟩
        ⟨"NYC Meeting", .timed (.naive 1735120800000000), "NYC Office", "", "nyc-1"⟩
        "grp").map (Option.map TriggerReq.scheduleExprTimezone) =
      .ok (some "UTC")) ∧
    "UTC" ≠ "Australia/Melbourne" := by
  constructor
  · rfl
  · decide

/-- Claim C2 amended: every registered trigger's fire-instant string has
the exact zone-free form at(YYYY-MM-DDTHH:MM:SS) — all digit groups, no Z
and no offset suffix — and the fire-timezone field carries the zone
out-of-band: the occurrence's original zone name when the occurrence was
zoned, and "UTC" when it was floating (the floating reminder instant
having been converted from the fallback zone to UTC), not the fallback
zone's own name. -/
theorem trigger_wire_format (tzdb : List (String × Int)) (now : Int)
    (env : PlannerEnv) (e : Occurrence) (g : String) (dt : DT) (r : TriggerReq)
    (hstart : e.start_datetime = .timed dt)
    (hok : create_event_schedule tzdb now env e g = .ok (some r)) :
    atClockString r.scheduleExpr ∧
    (∀ c tz, dt = .aware c tz → r.scheduleExprTimezone = tz.name) ∧
    (∀ c, dt = .naive c → r.scheduleExprTimezone = "UTC") := by
  rcases hcfg : get_schedule_configuration env with msg | ⟨arn, role, minutes, fbName⟩
  · rw [create_event_schedule, hcfg] at hok
    simp [bind, Except.bind] at hok
  · cases dt with
    | aware c tz =>
        rw [create_event_schedule_aware tzdb now env e g c tz arn role minutes
          fbName hcfg hstart] at hok
        split at hok
        · exact absurd hok (by simp)
        · have hr : _ = r := Option.some.inj (Except.ok.inj hok)
          subst hr
          refine ⟨scheduleExpression_format _, ?_, ?_⟩
          · intro c1 tz1 heq
            cases heq
            rfl
          · intro c1 heq
            cases heq
    | naive c =>
        rcases hfb : lookupTz tzdb fbName with _ | off
        · rw [create_event_schedule, hcfg] at hok
          simp only [hstart, generate_schedule_name, calculate_notification_time,
            DT.subMicros, hfb, bind, Except.bind, pure, Except.pure] at hok
          exact absurd hok (by simp)
        · rw [create_event_schedule_naive tzdb now env e g c arn role minutes
            fbName off hcfg hstart hfb] at hok
          split at hok
          · exact absurd hok (by simp)
          · have hr : _ = r := Option.some.inj (Except.ok.inj hok)
            subst hr
            refine ⟨scheduleExpression_format _, ?_, ?_⟩
            · intro c1 tz1 heq
              cases heq
            · intro c1 heq
              rfl

/-- Witness for the amended C2: the trigger produced for the floating
occurrence of the counterexample has the well-formed zone-free at(...)
expression and the fire-timezone "UTC". -/
theorem trigger_wire_format_witness :
    atClockString (TriggerReq.scheduleExpr
      ⟨"event-nyc-1-1735120800", "grp", "at(2024-12-24T22:45:00)", "UTC",
        "arn:lambda", "arn:role",
        ⟨"NYC Meeting", "NYC Office", "2024-12-25T10:00:00", "calendar_reminder"⟩⟩) ∧
    TriggerReq.scheduleExprTimezone
      ⟨"event-nyc-1-1735120800", "grp", "at(2024-12-24T22:45:00)", "UTC",
        "arn:lambda", "arn:role",
        ⟨"NYC Meeting", "NYC Office", "2024-12-25T10:00:00", "calendar_reminder"⟩⟩ =
      "UTC" := by
  have h := trigger_wire_format [("Australia/Melbourne", 39600000000)] 0
    ⟨some "bkt", some "grp", some "arn:lambda", some "arn:role", none,
      some "Australia/Melbourne"⟩
    ⟨"NYC Meeting", .timed (.naive 1735120800000000), "NYC Office", "", "nyc-1"⟩
    "grp" (.naive 1735120800000000)
    ⟨"event-nyc-1-1735120800", "grp", "at(2024-12-24T22:45:00)", "UTC",
      "arn:lambda", "arn:role",
      ⟨"NYC Meeting", "NYC Office", "2024-12-25T10:00:00", "calendar_reminder"⟩⟩
    rfl (by rfl)
  exact ⟨h.1, h.2.2 _ rfl⟩

/-! ### C3: the full-rebuild protocol -/

theorem clear_schedules_sleep (env : PlannerEnv) (w : World) (n : Nat)
    (h : Action.sleepSeconds n ∈ clear_event_bridge_schedules env w) : n = 30 := by
  rw [clear_event_bridge_schedules] at h
  split_ifs at h
  · simp at h
    exact h
  · simp at h

theorem clear_schedules_no_create (env : PlannerEnv) (w : World) (r : TriggerReq) :
    Action.createSchedule r ∉ clear_event_bridge_schedules env w := by
  rw [clear_event_bridge_schedules]
  split_ifs <;> simp

theorem create_schedules_for_events_mem (tzdb : List (String × Int)) (now : Int)
    (env : PlannerEnv) (g : String) :
    ∀ (evs : List Occurrence) (a : Action),
      a ∈ (create_schedules_for_events tzdb now env evs g).1 →
      ∃ r, a = .createSchedule r := by
  intro evs
  induction evs with
  | nil => intro a ha; simp [create_schedules_for_events] at ha
  | cons e rest ih =>
      intro a ha
      rw [create_schedules_for_events] at ha
      rcases h : create_event_schedule tzdb now env e g with m | o
      · rw [h] at ha
        simp at ha
      · rw [h] at ha
        cases o with
        | none =>
            simp at ha
            exact ih a ha
        | some req =>
            simp at ha
            rcases ha with ha | ha
            · exact ⟨req, ha⟩
            · exact ih a ha

theorem process_calendars_mem (tzdb : List (String × Int)) (now : Int)
    (env : PlannerEnv) (g : String) :
    ∀ (files : List ZipEntry) (a : Action),
      a ∈ (process_calendars_and_create_schedules tzdb now env files g).1 →
      ∃ r, a = .createSchedule r := by
  intro files
  induction files with
  | nil => intro a ha; simp [process_calendars_and_create_schedules] at ha
  | cons f rest ih =>
      intro a ha
      rw [process_calendars_and_create_schedules] at ha
      rcases h : (create_schedules_for_events tzdb now env
          (get_upcoming_events f.events) g).2 with m | k
      · rw [h] at ha
        simp at ha
        exact create_schedules_for_events_mem tzdb now env g _ a ha
      · rw [h] at ha
        simp at ha
        rcases ha with ha | ha
        · exact create_schedules_for_events_mem tzdb now env g _ a ha
        · exact ih a ha

/-- The planner handler trace is either empty (a validation failure before
the try block) or starts with the full group-rebuild sequence, followed
only by object deletions, object uploads and trigger registrations. -/
theorem lambda_handler_trace_shape (env : PlannerEnv) (w : World)
    (zf : Option ZipData) :
    (lambda_handler env w zf).2 = [] ∨
    ∃ rest, (lambda_handler env w zf).2 = clear_event_bridge_schedules env w ++ rest ∧
      ∀ a ∈ rest, (∃ k, a = .deleteObject k) ∨ (∃ k, a = .uploadObject k) ∨
        (∃ r, a = .createSchedule r) := by
  rcases hb : envPresent env.s3BucketName with _ | _
  · left; simp [lambda_handler, hb]
  · rcases hg : envPresent env.scheduleGroupName with _ | _
    · left; simp [lambda_handler, hb, hg]
    · cases zf with
      | none => left; simp [lambda_handler, hb, hg]
      | some zd =>
          cases zd with
          | malformed =>
              right
              refine ⟨w.bucketObjects.map .deleteObject, ?_, ?_⟩
              · simp [lambda_handler, hb, hg, extract_and_upload_calendars,
                  clear_bucket]
              · intro a ha
                simp at ha
                obtain ⟨k, _, hk⟩ := ha
                exact Or.inl ⟨k, hk.symm⟩
          | archive entries =>
              right
              rcases hpr : (process_calendars_and_create_schedules w.tzdb w.now env
                  (entries.filter fun e =>
                    pyEndsWith e.name ".ics" && !(pyEndsWith e.name "/"))
                  (env.scheduleGroupName.getD "")).2 with m | total
              all_goals
                refine ⟨w.bucketObjects.map .deleteObject ++
                  ((entries.filter fun e =>
                      pyEndsWith e.name ".ics" && !(pyEndsWith e.name "/")).map
                    fun e => Action.uploadObject e.name) ++
                  (process_calendars_and_create_schedules w.tzdb w.now env
                    (entries.filter fun e =>
                      pyEndsWith e.name ".ics" && !(pyEndsWith e.name "/"))
                    (env.scheduleGroupName.getD "")).1, ?_, ?_⟩
              · simp [lambda_handler, hb, hg, extract_and_upload_calendars,
                  clear_bucket, hpr, List.append_assoc]
              · intro a ha
                simp only [List.mem_append] at ha
                rcases ha with (ha | ha) | ha
                · simp at ha
                  obtain ⟨k, _, hk⟩ := ha
                  exact Or.inl ⟨k, hk.symm⟩
                · simp at ha
                  obtain ⟨x, _, hk⟩ := ha
                  exact Or.inr (Or.inl ⟨x.name, hk.symm⟩)
                · exact Or.inr (Or.inr (process_calendars_mem _ _ _ _ _ a ha))
              · simp [lambda_handler, hb, hg, extract_and_upload_calendars,
                  clear_bucket, hpr, List.append_assoc]
              · intro a ha
                simp only [List.mem_append] at ha
                rcases ha with (ha | ha) | ha
                · simp at ha
                  obtain ⟨k, _, hk⟩ := ha
                  exact Or.inl ⟨k, hk.symm⟩
                · simp at ha
                  obtain ⟨x, _, hk⟩ := ha
                  exact Or.inr (Or.inl ⟨x.name, hk.symm⟩)
                · exact Or.inr (Or.inr (process_calendars_mem _ _ _ _ _ a ha))

/-- Claim C3: in every planner run the trace begins — whenever anything at
all is done — with the group rebuild: the delete call (tolerating an
absent group, in which case the settling wait is skipped), the bounded
fixed 30-second wait (never any other duration, so no unbounded polling),
and the recreation of the empty group; every trigger registration occurs
strictly after that rebuild sequence. -/
theorem rebuild_protocol (env : PlannerEnv) (w : World) (zf : Option ZipData) :
    (∀ n, Action.sleepSeconds n ∈ (lambda_handler env w zf).2 → n = 30) ∧
    (clear_event_bridge_schedules env w =
      if w.groupExists then
        [.deleteScheduleGroup (env.scheduleGroupName.getD "ical-notifications"),
         .sleepSeconds 30,
         .createScheduleGroup (env.scheduleGroupName.getD "ical-notifications")]
      else
        [.deleteScheduleGroup (env.scheduleGroupName.getD "ical-notifications"),
         .createScheduleGroup (env.scheduleGroupName.getD "ical-notifications")]) ∧
    (∀ r, Action.createSchedule r ∈ (lambda_handler env w zf).2 →
      ∃ rest, (lambda_handler env w zf).2 = clear_event_bridge_schedules env w ++ rest ∧
        Action.createSchedule r ∈ rest ∧
        Action.createSchedule r ∉ clear_event_bridge_schedules env w) := by
  refine ⟨?_, ?_, ?_⟩
  · intro n hn
    rcases lambda_handler_trace_shape env w zf with h | ⟨rest, heq, hmem⟩
    · rw [h] at hn
      simp at hn
    · rw [heq] at hn
      rcases List.mem_append.1 hn with h1 | h1
      · exact clear_schedules_sleep env w n h1
      · rcases hmem _ h1 with ⟨k, hk⟩ | ⟨k, hk⟩ | ⟨r, hk⟩ <;> cases hk
  · rw [clear_event_bridge_schedules]
  · intro r hr
    rcases lambda_handler_trace_shape env w zf with h | ⟨rest, heq, hmem⟩
    · rw [h] at hr
      simp at hr
    · refine ⟨rest, heq, ?_, clear_schedules_no_create env w r⟩
      rw [heq] at hr
      rcases List.mem_append.1 hr with h1 | h1
      · exact absurd h1 (clear_schedules_no_create env w r)
      · exact h1

/-- Witness for C3: in a concrete run that registers a trigger, the
registration lies strictly after the delete-wait-recreate sequence. -/
theorem rebuild_protocol_witness :
    ∃ rest,
      (lambda_handler
        ⟨some "bkt", some "grp", some "arn:lambda", some "arn:role", none, none⟩
        ⟨true, ["old.ics"], [("UTC", 0)], 0⟩
        (some (.archive [⟨"cal.ics",
          [⟨some "Evt", none, none, some "u1",
            .timed (.naive 1735120800000000)⟩]⟩]))).2 =
        clear_event_bridge_schedules
          ⟨some "bkt", some "grp", some "arn:lambda", some "arn:role", none, none⟩
          ⟨true, ["old.ics"], [("UTC", 0)], 0⟩ ++ rest ∧
      Action.createSchedule
        ⟨"event-u1-1735120800", "grp", "at(2024-12-25T09:45:00)", "UTC",
          "arn:lambda", "arn:role",
          ⟨"Evt", "", "2024-12-25T10:00:00", "calendar_reminder"⟩⟩ ∈ rest ∧
      Action.createSchedule
        ⟨"event-u1-1735120800", "grp", "at(2024-12-25T09:45:00)", "UTC",
          "arn:lambda", "arn:role",
          ⟨"Evt", "", "2024-12-25T10:00:00", "calendar_reminder"⟩⟩ ∉
        clear_event_bridge_schedules
          ⟨some "bkt", some "grp", some "arn:lambda", some "arn:role", none, none⟩
          ⟨true, ["old.ics"], [("UTC", 0)], 0⟩ := by
  have h := rebuild_protocol
    ⟨some "bkt", some "grp", some "arn:lambda", some "arn:role", none, none⟩
    ⟨true, ["old.ics"], [("UTC", 0)], 0⟩
    (some (.archive [⟨"cal.ics",
      [⟨some "Evt", none, none, some "u1", .timed (.naive 1735120800000000)⟩]⟩]))
  exact h.2.2
    ⟨"event-u1-1735120800", "grp", "at(2024-12-25T09:45:00)", "UTC",
      "arn:lambda", "arn:role",
      ⟨"Evt", "", "2024-12-25T10:00:00", "calendar_reminder"⟩⟩
    (by decide)

/-! ### C4: configuration errors are detected lazily (corrected) -/

/-- Counterexample for C4 as stated: with the scheduler-target
configuration missing and one occurrence in the batch, the run does fail
with the configuration error — but only after the schedule group was
deleted and the calendar file uploaded, i.e. after side-effecting calls
and with partial state changes, contradicting the claim. -/
theorem config_error_counterexample :
    ((lambda_handler
        ⟨some "bkt", some "grp", none, some "arn:role", none, none⟩
        ⟨true, ["old.ics"], [("UTC", 0)], 0⟩
        (some (.archive [⟨"cal.ics",
          [⟨some "Evt", none, none, some "u1",
            .timed (.naive 1000000000000000)⟩]⟩]))).1.success = false) ∧
    ((lambda_handler
        ⟨some "bkt", some "grp", none, some "arn:role", none, none⟩
        ⟨true, ["old.ics"], [("UTC", 0)], 0⟩
        (some (.archive [⟨"cal.ics",
          [⟨some "Evt", none, none, some "u1",
            .timed (.naive 1000000000000000)⟩]⟩]))).1.error =
      some "NOTIFICATION_LAMBDA_ARN and SCHEDULER_ROLE_ARN environment variables are required") ∧
    Action.deleteScheduleGroup "grp" ∈
      (lambda_handler
        ⟨some "bkt", some "grp", none, some "arn:role", none, none⟩
        ⟨true, ["old.ics"], [("UTC", 0)], 0⟩
        (some (.archive [⟨"cal.ics",
          [⟨some "Evt", none, none, some "u1",
            .timed (.naive 1000000000000000)⟩]⟩]))).2 ∧
    Action.uploadObject "cal.ics" ∈
      (lambda_handler
        ⟨some "bkt", some "grp", none, some "arn:role", none, none⟩
        ⟨true, ["old.ics"], [("UTC", 0)], 0⟩
        (some (.archive [⟨"cal.ics",
          [⟨some "Evt", none, none, some "u1",
            .timed (.naive 1000000000000000)⟩]⟩]))).2 := by
  refine ⟨by decide, by decide, by decide, by decide⟩

theorem create_schedules_for_events_bad_cfg (tzdb : List (String × Int))
    (now : Int) (env : PlannerEnv) (g : String) (msg : String)
    (hcfg : get_schedule_configuration env = .error msg) :
    ∀ evs : List Occurrence, evs ≠ [] →
      create_schedules_for_events tzdb now env evs g = ([], .error msg) := by
  intro evs hne
  cases evs with
  | nil => exact absurd rfl hne
  | cons e rest =>
      rw [create_schedules_for_events]
      have he : create_event_schedule tzdb now env e g = .error msg := by
        rw [create_event_schedule, hcfg]
        rfl
      rw [he]

theorem process_calendars_bad_cfg (tzdb : List (String × Int)) (now : Int)
    (env : PlannerEnv) (g : String) (msg : String)
    (hcfg : get_schedule_configuration env = .error msg) :
    ∀ files : List ZipEntry,
      (process_calendars_and_create_schedules tzdb now env files g).1 = [] ∧
      ((∃ f ∈ files, get_upcoming_events f.events ≠ []) →
        (process_calendars_and_create_schedules tzdb now env files g).2 =
          .error msg) := by
  intro files
  induction files with
  | nil =>
      refine ⟨rfl, ?_⟩
      rintro ⟨f, hf, _⟩
      simp at hf
  | cons f rest ih =>
      by_cases hf : get_upcoming_events f.events = []
      · have hempty : create_schedules_for_events tzdb now env
            (get_upcoming_events f.events) g = ([], .ok 0) := by
          rw [hf]
          rfl
        constructor
        · rw [process_calendars_and_create_schedules, hempty]
          simpa using ih.1
        · rintro ⟨f1, hf1, hne1⟩
          rcases List.mem_cons.1 hf1 with rfl | hf1
          · exact absurd hf hne1
          · rw [process_calendars_and_create_schedules, hempty]
            have := ih.2 ⟨f1, hf1, hne1⟩
            simp [this, Except.map]
      · have herr := create_schedules_for_events_bad_cfg tzdb now env g msg hcfg
          (get_upcoming_events f.events) hf
        constructor
        · rw [process_calendars_and_create_schedules, herr]
        · intro _
          rw [process_calendars_and_create_schedules, herr]

/-- Claim C4 amended: when the scheduler-target or lead-time configuration
is missing or invalid, no trigger is ever registered, but the failure is
not raised before side effects: the configuration error surfaces while the
first occurrence is processed, after the schedule group has been deleted
and recreated, the bucket cleared and the calendar files uploaded, and the
run then returns success:false carrying the configuration error. -/
theorem config_error_after_destruction (env : PlannerEnv) (w : World)
    (entries : List ZipEntry) (msg : String)
    (hcfg : get_schedule_configuration env = .error msg)
    (hb : envPresent env.s3BucketName = true)
    (hg : envPresent env.scheduleGroupName = true)
    (hsome : ∃ f ∈ entries.filter
        (fun e => pyEndsWith e.name ".ics" && !(pyEndsWith e.name "/")),
      get_upcoming_events f.events ≠ []) :
    (lambda_handler env w (some (.archive entries))).1.success = false ∧
    (lambda_handler env w (some (.archive entries))).1.error = some msg ∧
    (∀ r, Action.createSchedule r ∉
      (lambda_handler env w (some (.archive entries))).2) ∧
    (lambda_handler env w (some (.archive entries))).2 =
      clear_event_bridge_schedules env w ++
        w.bucketObjects.map Action.deleteObject ++
        (entries.filter
          (fun e => pyEndsWith e.name ".ics" && !(pyEndsWith e.name "/"))).map
          (fun e => Action.uploadObject e.name) := by
  have hp := process_calendars_bad_cfg w.tzdb w.now env
    (env.scheduleGroupName.getD "") msg hcfg
    (entries.filter (fun e => pyEndsWith e.name ".ics" && !(pyEndsWith e.name "/")))
  have hp2 := hp.2 hsome
  have htr : (lambda_handler env w (some (.archive entries))).2 =
      clear_event_bridge_schedules env w ++
        w.bucketObjects.map Action.deleteObject ++
        (entries.filter
          (fun e => pyEndsWith e.name ".ics" && !(pyEndsWith e.name "/"))).map
          (fun e => Action.uploadObject e.name) := by
    simp [lambda_handler, hb, hg, extract_and_upload_calendars, clear_bucket,
      hp2, hp.1]
  refine ⟨?_, ?_, ?_, htr⟩
  · simp [lambda_handler, hb, hg, extract_and_upload_calendars, clear_bucket,
      hp2, failResult]
  · simp [lambda_handler, hb, hg, extract_and_upload_calendars, clear_bucket,
      hp2, failResult]
  · intro r hmem
    rw [htr] at hmem
    rcases List.mem_append.1 hmem with h | h
    · rcases List.mem_append.1 h with h1 | h1
      · exact clear_schedules_no_create env w r h1
      · simp at h1
    · simp at h

/-- Witness for the amended C4: the concrete run of the counterexample
registers nothing and its trace is exactly the destructive phase. -/
theorem config_error_after_destruction_witness :
    (lambda_handler
        ⟨some "bkt", some "grp", none, some "arn:role", none, none⟩
        ⟨true, ["old.ics"], [("UTC", 0)], 0⟩
        (some (.archive [⟨"cal.ics",
          [⟨some "Evt", none, none, some "u1",
            .timed (.naive 1000000000000000)⟩]⟩]))).1.success = false ∧
    (lambda_handler
        ⟨some "bkt", some "grp", none, some "arn:role", none, none⟩
        ⟨true, ["old.ics"], [("UTC", 0)], 0⟩
        (some (.archive [⟨"cal.ics",
          [⟨some "Evt", none, none, some "u1",
            .timed (.naive 1000000000000000)⟩]⟩]))).2 =
      clear_event_bridge_schedules
          ⟨some "bkt", some "grp", none, some "arn:role", none, none⟩
          ⟨true, ["old.ics"], [("UTC", 0)], 0⟩ ++
        ["old.ics"].map Action.deleteObject ++
        ([(⟨"cal.ics",
          [⟨some "Evt", none, none, some "u1",
            .timed (.naive 1000000000000000)⟩]⟩ : ZipEntry)].filter
          (fun e => pyEndsWith e.name ".ics" && !(pyEndsWith e.name "/"))).map
          (fun e => Action.uploadObject e.name) := by
  have h := config_error_after_destruction
    ⟨some "bkt", some "grp", none, some "arn:role", none, none⟩
    ⟨true, ["old.ics"], [("UTC", 0)], 0⟩
    [⟨"cal.ics", [⟨some "Evt", none, none, some "u1",
      .timed (.naive 1000000000000000)⟩]⟩]
    "NOTIFICATION_LAMBDA_ARN and SCHEDULER_ROLE_ARN environment variables are required"
    (by rfl) (by rfl) (by rfl)
    ⟨⟨"cal.ics", [⟨some "Evt", none, none, some "u1",
      .timed (.naive 1000000000000000)⟩]⟩, by decide, by decide⟩
  exact ⟨h.1, h.2.2.2⟩

/-! ### C10: malformed zip payloads are detected only after clearing -/

/-- Claim C10: when the zip_file field is present but the payload does not
decode, the handler fails with success:false — but by then the schedule
group rebuild and the deletion of every stored object have already been
performed, and the trace ends there: the cleared state is not restored. -/
theorem malformed_zip_after_clearing (env : PlannerEnv) (w : World)
    (hb : envPresent env.s3BucketName = true)
    (hg : envPresent env.scheduleGroupName = true) :
    (lambda_handler env w (some .malformed)).1.success = false ∧
    (lambda_handler env w (some .malformed)).2 =
      clear_event_bridge_schedules env w ++
        w.bucketObjects.map Action.deleteObject ∧
    Action.deleteScheduleGroup (env.scheduleGroupName.getD "ical-notifications") ∈
      (lambda_handler env w (some .malformed)).2 ∧
    ∀ k ∈ w.bucketObjects,
      Action.deleteObject k ∈ (lambda_handler env w (some .malformed)).2 := by
  have htr : (lambda_handler env w (some .malformed)).2 =
      clear_event_bridge_schedules env w ++
        w.bucketObjects.map Action.deleteObject := by
    simp [lambda_handler, hb, hg, extract_and_upload_calendars, clear_bucket]
  refine ⟨?_, htr, ?_, ?_⟩
  · simp [lambda_handler, hb, hg, extract_and_upload_calendars, clear_bucket,
      failResult]
  · rw [htr]
    refine List.mem_append.2 (Or.inl ?_)
    rw [clear_event_bridge_schedules]
    split_ifs <;> simp
  · intro k hk
    rw [htr]
    exact List.mem_append.2 (Or.inr (List.mem_map.2 ⟨k, hk, rfl⟩))

/-- Witness for C10: a concrete malformed-payload run fails after clearing
the group and deleting the stored object. -/
theorem malformed_zip_after_clearing_witness :
    (lambda_handler
        ⟨some "bkt", some "grp", some "arn:lambda", some "arn:role", none, none⟩
        ⟨true, ["old.ics"], [("UTC", 0)], 0⟩ (some .malformed)).1.success = false ∧
    Action.deleteObject "old.ics" ∈
      (lambda_handler
        ⟨some "bkt", some "grp", some "arn:lambda", some "arn:role", none, none⟩
        ⟨true, ["old.ics"], [("UTC", 0)], 0⟩ (some .malformed)).2 := by
  have h := malformed_zip_after_clearing
    ⟨some "bkt", some "grp", some "arn:lambda", some "arn:role", none, none⟩
    ⟨true, ["old.ics"], [("UTC", 0)], 0⟩ (by rfl) (by rfl)
  exact ⟨h.1, h.2.2.2 "old.ics" (by decide)⟩

/-! ### C7: dispatcher payload validation -/

/-- Claim C7: with a valid environment, a dispatcher payload missing any
required field produces success:false whose error names exactly the
missing fields among event_summary, event_time and notification_type, with
an empty transport trace (no formatting result is published); the missing
list is precisely the set of absent required fields. -/
theorem dispatcher_missing_fields (env : NotifEnv) (w : NotifWorld)
    (ev : DispatchEvent)
    (henv : (validateNotifEnv env).2.2 = [])
    (hmiss : missingFields ev ≠ []) :
    notification_lambda_handler env w ev =
      ({ success := false,
         error := some ("Missing required fields: " ++
           String.intercalate ", " (missingFields ev)),
         messageLength := none, messageId := none }, []) ∧
    (∀ f, f ∈ missingFields ev ↔
      (f = "event_summary" ∧ ev.event_summary = none) ∨
      (f = "event_time" ∧ ev.event_time = none) ∨
      (f = "notification_type" ∧ ev.notification_type = none)) := by
  constructor
  · rw [notification_lambda_handler]
    rcases hm : missingFields ev with _ | ⟨m0, ms⟩
    · exact absurd hm hmiss
    · simp only [henv, validate_event_payload, hm]
  · intro f
    cases hs : ev.event_summary <;> cases ht : ev.event_time <;>
      cases hn : ev.notification_type <;>
      simp [missingFields, hs, hn, ht]

/-- Witness for C7: a payload with only event_summary present fails naming
event_time and notification_type, publishing nothing. -/
theorem dispatcher_missing_fields_witness :
    notification_lambda_handler ⟨some "arn:sns", some "15"⟩ ⟨true, "mid", ""⟩
        ⟨some "Mtg", none, none, none⟩ =
      ({ success := false,
         error := some ("Missing required fields: " ++
           String.intercalate ", "
             (missingFields ⟨some "Mtg", none, none, none⟩)),
         messageLength := none, messageId := none }, []) ∧
    ("event_time" ∈ missingFields ⟨some "Mtg", none, none, none⟩ ↔
      ("event_time" = "event_summary" ∧
          (some "Mtg" : Option String) = none) ∨
      ("event_time" = "event_time" ∧ (none : Option String) = none) ∨
      ("event_time" = "notification_type" ∧ (none : Option String) = none)) := by
  have h := dispatcher_missing_fields ⟨some "arn:sns", some "15"⟩
    ⟨true, "mid", ""⟩ ⟨some "Mtg", none, none, none⟩ (by rfl) (by decide)
  exact ⟨h.1, h.2 "event_time"⟩

end ChronosSync
